import Mathlib

/-!
Verification of the telnet client for the AudioControl Director M6400/M6800
(source file `src/audiocontrol_director_telnet/telnet_client.py`) against its
natural-language specification.

Embedding conventions:
* Python strings are modelled as `List Char`; a Lean string literal `s` is
  converted with `s.data`.
* Python's `s.split(sep)` (all occurrences, non-overlapping, scanned left to
  right) is `pySplit`; Python's `s.split(sep, 1)` (at most one split) is
  `pySplit1`.  Both are written with structural recursion (`pySplit` uses a
  fuel argument equal to the length of the input) so that concrete instances
  evaluate inside the kernel.
* Python's `int(...)` applied to a string (optional surrounding whitespace,
  optional sign, decimal digits possibly grouped by single underscores) is
  `pyInt`; Python's `str(...)` applied to an integer is `intToChars`.
* Python exceptions are modelled by the result type `Py`: the bare
  `Exception` raised on an echo mismatch is `PyErr.exception` (what the spec
  calls ProtocolViolationError), the `BadCommandError` class is
  `PyErr.badCommand`, a `ValueError` raised by `int` is `PyErr.valueError`
  (what the spec calls MalformedTokenError or MalformedReportError, depending
  on the raising function), and an `IndexError` raised by list indexing is
  `PyErr.indexError`.
* The blocking read loop of `TelnetClient._async_send_command` is modelled by
  the list of chunks successively returned by `reader.read(1024)`; an
  exhausted list, or an empty chunk inside the list, models the 0-length read
  reported at end of stream.
-/

/-- Error kinds corresponding to the exceptions the Python code can raise. -/
inductive PyErr where
  | exception
  | badCommand
  | valueError
  | indexError
deriving DecidableEq, Repr

/-- Result of a Python computation: a value or a raised exception. -/
inductive Py (α : Type) where
  | ok (val : α)
  | error (e : PyErr)
deriving DecidableEq, Repr

/-- True when the computation did not raise. -/
def Py.isOk {α : Type} : Py α → Bool
  | .ok _ => true
  | .error _ => false

/-- Python `s.split(sep, 1)`: split at the first occurrence of `sep` only.
Used by `_interpret_result` (line 262 of the source). -/
def pySplit1Go (sep : List Char) : List Char → List (List Char)
  | [] => [[]]
  | c :: rest =>
    if sep.isPrefixOf (c :: rest) then
      [[], List.drop (sep.length - 1) rest]
    else
      match pySplit1Go sep rest with
      | [] => [[c]]
      | hd :: tl => (c :: hd) :: tl

/-- Python `s.split(sep, 1)` with the (unused here) empty-separator case
guarded out, as Python raises on an empty separator. -/
def pySplit1 (sep s : List Char) : List (List Char) :=
  if sep.isEmpty then [s] else pySplit1Go sep s

/-- Worker for Python `s.split(sep)`: the fuel argument is the length of the
remaining input, which bounds the recursion structurally. -/
def pySplitGo (sep : List Char) : Nat → List Char → List (List Char)
  | _, [] => [[]]
  | 0, s => [s]
  | fuel + 1, c :: rest =>
    if sep.isPrefixOf (c :: rest) then
      [] :: pySplitGo sep fuel (List.drop (sep.length - 1) rest)
    else
      match pySplitGo sep fuel rest with
      | [] => [[c]]
      | hd :: tl => (c :: hd) :: tl

/-- Python `s.split(sep)`: split at every non-overlapping occurrence of
`sep`, scanned left to right. -/
def pySplit (sep s : List Char) : List (List Char) :=
  if sep.isEmpty then [s] else pySplitGo sep s.length s

/-- True when `sep` occurs as a contiguous subsequence of `s`. -/
def hasOccur (sep : List Char) : List Char → Bool
  | [] => sep.isEmpty
  | c :: rest => sep.isPrefixOf (c :: rest) || hasOccur sep rest

/-- Whitespace characters stripped by Python `int` before parsing. -/
def isPySpace (c : Char) : Bool :=
  c == ' ' || c == '\t' || c == '\n' || c == '\r' || c == '\x0B' || c == '\x0C'

/-- Strip leading and trailing whitespace, as Python `int` does. -/
def stripWS (s : List Char) : List Char :=
  ((s.dropWhile isPySpace).reverse.dropWhile isPySpace).reverse

/-- After the first digit, a Python integer literal is digits optionally
separated by single underscores. -/
def udRest : List Char → Bool
  | [] => true
  | c :: rest =>
    if c = '_' then
      match rest with
      | [] => false
      | c2 :: rest2 => c2.isDigit && udRest rest2
    else c.isDigit && udRest rest

/-- A nonempty digit string with valid underscore grouping. -/
def digitsOk : List Char → Bool
  | [] => false
  | c :: rest => c.isDigit && udRest rest

/-- Numeric value of a decimal digit character. -/
def digitVal (c : Char) : Nat := c.toNat - 48

/-- Value of a digit string, ignoring underscore separators. -/
def digitsVal (s : List Char) : Nat :=
  (s.filter (fun c => c != '_')).foldl (fun a c => 10 * a + digitVal c) 0

/-- Parse an unsigned digit string as Python `int` does after sign removal. -/
def parseUDigits (s : List Char) : Option Nat :=
  if digitsOk s then some (digitsVal s) else none

/-- Python `int(s)` for a string `s`: `none` models a raised `ValueError`. -/
def pyInt (s : List Char) : Option Int :=
  match stripWS s with
  | '+' :: rest => (parseUDigits rest).map (fun n => (n : Int))
  | '-' :: rest => (parseUDigits rest).map (fun n => -(n : Int))
  | t => (parseUDigits t).map (fun n => (n : Int))

/-- Decimal digit character for a value below ten. -/
def digitChar : Nat → Char
  | 0 => '0'
  | 1 => '1'
  | 2 => '2'
  | 3 => '3'
  | 4 => '4'
  | 5 => '5'
  | 6 => '6'
  | 7 => '7'
  | 8 => '8'
  | 9 => '9'
  | _ => '?'

/-- Worker for Python `str` on a natural number; the fuel argument (the
number itself) bounds the recursion structurally. -/
def natToCharsGo : Nat → Nat → List Char
  | 0, n => [digitChar (n % 10)]
  | fuel + 1, n =>
    if n < 10 then [digitChar n]
    else natToCharsGo fuel (n / 10) ++ [digitChar (n % 10)]

/-- Python `str` on a natural number. -/
def natToChars (n : Nat) : List Char := natToCharsGo n n

/-- Python `str` on an integer, as interpolated by f-strings. -/
def intToChars (n : Int) : List Char :=
  if n < 0 then '-' :: natToChars n.natAbs else natToChars n.toNat

/-- The `InputID` class (source lines 10-71): `_analog` starts at `-1` and
`_digital` starts empty; the named constructors overwrite exactly one of
the two fields. -/
structure InputID where
  analog : Int
  digital : List Char
deriving DecidableEq, Repr

/-- `InputID.create_analog` (source lines 27-32): no range check. -/
def InputID.create_analog (selection : Int) : InputID := ⟨selection, []⟩

/-- `InputID.create_digital` (source lines 34-39). -/
def InputID.create_digital (selection : List Char) : InputID := ⟨-1, selection⟩

/-- The body of `InputID.create_from_status_id` after the numeric id has been
extracted (source lines 46-51). -/
def InputID.create_from_numeric (numeric_id : Int) : InputID :=
  if 1 ≤ numeric_id ∧ numeric_id ≤ 8 then ⟨numeric_id, []⟩
  else ⟨-1, if numeric_id = 9 then ['a'] else ['b']⟩

/-- `InputID.create_from_status_id` (source lines 41-51): split the token on
every occurrence of the three characters space-ampersand-space, index the
part at position 1 (raising `IndexError` when the separator is absent), and
parse it with `int` (raising `ValueError` on failure). -/
def InputID.create_from_status_id (status_id : List Char) : Py InputID :=
  match (pySplit (" & ").data status_id)[1]? with
  | none => .error .indexError
  | some part =>
    match pyInt part with
    | none => .error .valueError
    | some numeric_id => .ok (InputID.create_from_numeric numeric_id)

/-- `InputID.__str__` (source lines 62-65): the wire form of the input. -/
def InputID.toWire (i : InputID) : List Char :=
  if i.analog ≠ -1 then ("MX").data ++ intToChars i.analog
  else ("DX").data ++ i.digital

/-- The `InputID.name` property (source lines 53-60). -/
def InputID.humanName (i : InputID) : List Char :=
  if i.analog ≠ -1 then
    ("Channel ").data ++ intToChars (i.analog * 2 - 1) ++ ['-'] ++
      intToChars (i.analog * 2)
  else ("Digital In ").data ++ i.digital.map Char.toUpper

/-- The `OutputID` class (source lines 74-133), with the same field layout
as `InputID`. -/
structure OutputID where
  analog : Int
  digital : List Char
deriving DecidableEq, Repr

/-- `OutputID.create_analog` (source lines 92-97): no range check. -/
def OutputID.create_analog (selection : Int) : OutputID := ⟨selection, []⟩

/-- `OutputID.create_digital` (source lines 99-104). -/
def OutputID.create_digital (selection : List Char) : OutputID := ⟨-1, selection⟩

/-- The body of `OutputID.create_from_status_id` after the numeric id has
been obtained (source lines 110-115). -/
def OutputID.create_from_numeric (numeric_id : Int) : OutputID :=
  if 1 ≤ numeric_id ∧ numeric_id ≤ 8 then ⟨numeric_id, []⟩
  else ⟨-1, if numeric_id = 9 then ['a'] else ['b']⟩

/-- `OutputID.create_from_status_id` (source lines 106-115): parse the bare
token with `int` (raising `ValueError` on failure) and map the numeric id. -/
def OutputID.create_from_status_id (status_id : List Char) : Py OutputID :=
  match pyInt status_id with
  | none => .error .valueError
  | some numeric_id => .ok (OutputID.create_from_numeric numeric_id)

/-- `OutputID.__str__` (source lines 124-127): the wire form of the output. -/
def OutputID.toWire (o : OutputID) : List Char :=
  if o.analog ≠ -1 then ("Z").data ++ intToChars o.analog
  else ("DXO").data ++ o.digital

/-- The `OutputID.name` property (source lines 117-122). -/
def OutputID.humanName (o : OutputID) : List Char :=
  if o.analog ≠ -1 then ("Zone ").data ++ intToChars o.analog
  else ("Digital Out ").data ++ o.digital.map Char.toUpper

/-- The `OutputStatus` record (source lines 136-183). -/
structure OutputStatus where
  output_id : OutputID
  name : List Char
  input_id : InputID
  is_on : Bool
  volume : Int
  is_signal_sense_on : Bool
deriving DecidableEq, Repr

/-- The outputs dictionary: a Python dict keyed by wire-form output tokens,
modelled as an association list in insertion order. -/
abbrev OutputsDict := List (List Char × OutputStatus)

/-- The `SystemStatus` record (source lines 186-205). -/
structure SystemStatus where
  name : List Char
  outputs : OutputsDict
deriving DecidableEq, Repr

/-- Python dict assignment `d[k] = v`: replace in place when the key exists,
otherwise append, preserving insertion order. -/
def dictSet (m : OutputsDict) (k : List Char) (v : OutputStatus) : OutputsDict :=
  if m.any (fun p => p.1 == k) then
    m.map (fun p => if p.1 = k then (k, v) else p)
  else m ++ [(k, v)]

/-- The device's failure sentinel, f-string `xx{command}xx\r`
(source line 272). -/
def badSentinel (command : List Char) : List Char :=
  ("xx").data ++ command ++ ("xx\r").data

/-- The device's success sentinel, f-string `01{command}\r`
(source line 276). -/
def okSentinel (command : List Char) : List Char :=
  ("01").data ++ command ++ ("\r").data

/-- `TelnetClient._interpret_result` (source lines 253-281): split the
response at the first carriage return, require the first part to echo the
command, then classify the remainder. -/
def interpret_result (command response : List Char) (expect_success_code : Bool) :
    Py (Bool × List Char) :=
  let response_parts := pySplit1 ("\r").data response
  let command_echo := response_parts.getD 0 []
  if command_echo ≠ command then .error .exception
  else
    match response_parts[1]? with
    | none => .error .indexError
    | some result =>
      if result = badSentinel command then .error .badCommand
      else
        let succeeded := result == okSentinel command
        if expect_success_code then .ok (succeeded, result)
        else .ok (true, result)

/-- The read loop of `TelnetClient._async_send_command` (source lines
239-251): accumulate chunks, adding `len(chunk.split(newline)) - 1` to the
line count after each nonempty chunk, and stop on an empty chunk or when the
line count equals the expected count. -/
def recvLoop (expected : Int) : List (List Char) → Int → List Char
  | [], _ => []
  | chunk :: rest, line_count =>
    if chunk = [] then []
    else
      let line_count' := line_count + ((pySplit ("\n").data chunk).length : Int) - 1
      if line_count' = expected then chunk
      else chunk ++ recvLoop expected rest line_count'

/-- `TelnetClient._async_send_command` (source lines 229-251): the pair of
the text written to the stream (the command plus a carriage return) and the
accumulated text returned by the read loop. -/
def async_send_command (command : List Char) (expected : Int)
    (chunks : List (List Char)) : List Char × List Char :=
  (command ++ ("\r").data, recvLoop expected chunks 0)

/-- One iteration of the record loop in `TelnetClient.async_get_system_status`
(source lines 360-385): split the record on comma-space, parse the fields at
positions 1 (output id) and 4 (volume) as integers, decode the input token at
position 3, read the flags at positions 2 and 10, and store the record under
the wire form of the decoded output id. -/
def processRecord (result_line : List Char) (outputs : OutputsDict) :
    Py OutputsDict :=
  let fields := pySplit (", ").data result_line
  let name := fields.getD 0 []
  match fields[1]? with
  | none => .error .indexError
  | some f1 =>
    match pyInt f1 with
    | none => .error .valueError
    | some raw_output_id =>
      let output_id := OutputID.create_from_numeric raw_output_id
      match fields[2]? with
      | none => .error .indexError
      | some f2 =>
        let is_on := f2 == ("on").data
        match fields[3]? with
        | none => .error .indexError
        | some raw_input_id =>
          match InputID.create_from_status_id raw_input_id with
          | .error e => .error e
          | .ok input_id =>
            match fields[4]? with
            | none => .error .indexError
            | some f4 =>
              match pyInt f4 with
              | none => .error .valueError
              | some volume =>
                match fields[10]? with
                | none => .error .indexError
                | some f10 =>
                  let is_signal_sense_on := f10 == ("on").data
                  let output : OutputStatus :=
                    ⟨output_id, name, input_id, is_on, volume, is_signal_sense_on⟩
                  .ok (dictSet outputs output_id.toWire output)

/-- The record loop of `TelnetClient.async_get_system_status`, folding
`processRecord` over the selected lines in order. -/
def processLines : List (List Char) → OutputsDict → Py OutputsDict
  | [], outputs => .ok outputs
  | line :: rest, outputs =>
    match processRecord line outputs with
    | .error e => .error e
    | .ok outputs' => processLines rest outputs'

/-- The parsing part of `TelnetClient.async_get_system_status` (source lines
315-387): split the payload on CRLF, take the device name from the part at
position 1 of splitting line 0 on the amplifier-name marker (raising
`IndexError` when the marker is absent), then process the record lines of the
Python slice `result_lines[11:21]`, which silently yields fewer lines when
the payload is short. -/
def parseStatus (raw_result : List Char) : Py SystemStatus :=
  let result_lines := pySplit ("\r\n").data raw_result
  let system_name_line := result_lines.getD 0 []
  match (pySplit ("AMPLIFIER NAME: ").data system_name_line)[1]? with
  | none => .error .indexError
  | some system_name =>
    match processLines ((result_lines.drop 11).take 10) [] with
    | .error e => .error e
    | .ok outputs => .ok ⟨system_name, outputs⟩

/-- Cumulative number of newline characters in the first `j` chunks. -/
def cumNewlines (chunks : List (List Char)) (j : Nat) : Nat :=
  ((chunks.take j).flatten).count '\n'

/-- Index of the first chunk at which the read loop halts, starting from a
cumulative newline count `c`: the first chunk that is empty, or after which
the cumulative newline count equals `expected`. -/
def readStopFrom (expected c : Int) (chunks : List (List Char)) : Option Nat :=
  (List.range chunks.length).find?
    (fun i => chunks.getD i [] == [] || (c + (cumNewlines chunks (i + 1) : Int)) == expected)

/-- Result of the read loop as characterized by the specification, starting
from a cumulative newline count `c`: the concatenation of the chunks up to
and including the first chunk at which the cumulative newline count equals
`expected`, or up to (excluding) the first zero-length chunk, or of all
chunks when the stream ends first. -/
def specRecvFrom (expected c : Int) (chunks : List (List Char)) : List Char :=
  match readStopFrom expected c chunks with
  | some i =>
    if chunks.getD i [] == [] then (chunks.take i).flatten
    else (chunks.take (i + 1)).flatten
  | none => chunks.flatten

/-- Result of the read loop as characterized by the specification, with the
cumulative newline count starting at zero. -/
def specRecvResult (expected : Int) (chunks : List (List Char)) : List Char :=
  specRecvFrom expected 0 chunks

/-- Well-formedness of one status record line carrying numeric output id
`n`: it splits on comma-space into at least eleven fields, field 1 parses to
`n`, field 3 decodes as an input status token, and field 4 parses as an
integer. -/
def recordOk (line : List Char) (n : Int) : Bool :=
  let fields := pySplit (", ").data line
  decide (11 ≤ fields.length) &&
  pyInt (fields.getD 1 []) == some n &&
  (InputID.create_from_status_id (fields.getD 3 [])).isOk &&
  (pyInt (fields.getD 4 [])).isSome

/-- Pointwise well-formedness of the record lines against a list of expected
numeric output ids. -/
def recordsOk : List (List Char) → List Int → Bool
  | [], [] => true
  | line :: ls, n :: ns => recordOk line n && recordsOk ls ns
  | _, _ => false

/-- Wire-form key derived from a numeric output id by decoding it and
re-rendering the decoded output. -/
def wireKey (n : Int) : List Char := (OutputID.create_from_numeric n).toWire

/-- A record line whose output-id field (position 1) or volume field
(position 4) is present but does not parse as an integer. -/
def badRecordField (line : List Char) : Prop :=
  (∃ s, (pySplit (", ").data line)[1]? = some s ∧ pyInt s = none) ∨
  (∃ t, (pySplit (", ").data line)[4]? = some t ∧ pyInt t = none)

/-- A well-formed 21-line status payload used to witness the status-parser
theorems on a concrete input. -/
def samplePayload : List Char :=
  ("AMPLIFIER NAME: Amp\r\nh\r\nh\r\nh\r\nh\r\nh\r\nh\r\nh\r\nh\r\nh\r\nh\r\nZ, 1, on, A & 1, 100, 0, 0, e, g, t, off\r\nZ, 2, on, A & 2, 100, 0, 0, e, g, t, off\r\nZ, 3, on, A & 3, 100, 0, 0, e, g, t, off\r\nZ, 4, on, A & 4, 100, 0, 0, e, g, t, off\r\nZ, 5, on, A & 5, 100, 0, 0, e, g, t, off\r\nZ, 6, on, A & 6, 100, 0, 0, e, g, t, off\r\nZ, 7, on, A & 7, 100, 0, 0, e, g, t, off\r\nZ, 8, on, A & 8, 100, 0, 0, e, g, t, off\r\nDA, 9, on, A & 9, 100, 0, 0, e, g, t, off\r\nDB, 10, off, A & 10, 55, 0, 0, e, g, t, on").data

/-- A 21-line status payload whose first record line has a non-numeric
output-id field, used to witness the failure branch of the status parser. -/
def samplePayloadBad : List Char :=
  ("AMPLIFIER NAME: Amp\r\nh\r\nh\r\nh\r\nh\r\nh\r\nh\r\nh\r\nh\r\nh\r\nh\r\nZ, q, on, A & 1, 100, 0, 0, e, g, t, off\r\nZ, 2, on, A & 2, 100, 0, 0, e, g, t, off\r\nZ, 3, on, A & 3, 100, 0, 0, e, g, t, off\r\nZ, 4, on, A & 4, 100, 0, 0, e, g, t, off\r\nZ, 5, on, A & 5, 100, 0, 0, e, g, t, off\r\nZ, 6, on, A & 6, 100, 0, 0, e, g, t, off\r\nZ, 7, on, A & 7, 100, 0, 0, e, g, t, off\r\nZ, 8, on, A & 8, 100, 0, 0, e, g, t, off\r\nDA, 9, on, A & 9, 100, 0, 0, e, g, t, off\r\nDB, 10, off, A & 10, 55, 0, 0, e, g, t, on").data
-- split helper lemmas

theorem hasOccur_sep_ne_nil {sep s : List Char} (h : hasOccur sep s = false) :
    sep ≠ [] := by
  cases s with
  | nil =>
    simp only [hasOccur] at h
    simpa [List.isEmpty_iff] using h
  | cons c rest =>
    intro he
    subst he
    simp [hasOccur, List.isPrefixOf] at h

theorem pySplit1Go_no_occur (sep : List Char) :
    ∀ s : List Char, hasOccur sep s = false → pySplit1Go sep s = [s] := by
  intro s
  induction s with
  | nil => intro _; rfl
  | cons c rest ih =>
    intro h
    simp only [hasOccur, Bool.or_eq_false_iff] at h
    simp only [pySplit1Go, h.1, ih h.2]
    simp

theorem pySplit1_no_occur {sep s : List Char} (h : hasOccur sep s = false) :
    pySplit1 sep s = [s] := by
  have hne := hasOccur_sep_ne_nil h
  simp only [pySplit1]
  rw [if_neg (by simpa [List.isEmpty_iff] using hne)]
  exact pySplit1Go_no_occur sep s h

theorem pySplitGo_no_occur (sep : List Char) :
    ∀ fuel (s : List Char), s.length ≤ fuel → hasOccur sep s = false →
      pySplitGo sep fuel s = [s] := by
  intro fuel
  induction fuel with
  | zero =>
    intro s hlen _
    cases s with
    | nil => rfl
    | cons c rest => simp at hlen
  | succ f ih =>
    intro s hlen h
    cases s with
    | nil => rfl
    | cons c rest =>
      simp only [hasOccur, Bool.or_eq_false_iff] at h
      have hlen' : rest.length ≤ f := by
        simpa [List.length_cons, Nat.succ_le_succ_iff] using hlen
      simp only [pySplitGo, h.1, ih rest hlen' h.2]
      simp

theorem pySplit_no_occur {sep s : List Char} (h : hasOccur sep s = false) :
    pySplit sep s = [s] := by
  have hne := hasOccur_sep_ne_nil h
  simp only [pySplit]
  rw [if_neg (by simpa [List.isEmpty_iff] using hne)]
  exact pySplitGo_no_occur sep s.length s (Nat.le_refl _) h

theorem pySplit_sep_append_no_occur {sep s : List Char}
    (h : hasOccur sep s = false) : pySplit sep (sep ++ s) = [[], s] := by
  have hne := hasOccur_sep_ne_nil h
  obtain ⟨c, sep', rfl⟩ := List.exists_cons_of_ne_nil hne
  simp only [pySplit]
  rw [if_neg (by simp [List.isEmpty_iff])]
  have hlen : ((c :: sep') ++ s).length = (sep' ++ s).length + 1 := by simp
  rw [hlen]
  simp only [List.cons_append, pySplitGo]
  rw [if_pos ?hpre]
  case hpre =>
    exact List.isPrefixOf_iff_prefix.mpr (List.prefix_append _ _)
  simp only [List.append_eq]
  have hdrop : List.drop ((c :: sep').length - 1) (sep' ++ s) = s := by
    simp [List.drop_left']
  rw [hdrop]
  rw [pySplitGo_no_occur (c :: sep') (sep' ++ s).length s (by simp) h]

theorem pySplitGo_ne_nil (sep : List Char) :
    ∀ fuel (s : List Char), pySplitGo sep fuel s ≠ [] := by
  intro fuel s
  match fuel, s with
  | _, [] => simp [pySplitGo]
  | 0, c :: rest => simp [pySplitGo]
  | f + 1, c :: rest =>
    simp only [pySplitGo]
    split
    · simp
    · split <;> simp

theorem pySplitGo_single_length (ch : Char) :
    ∀ fuel (s : List Char), s.length ≤ fuel →
      (pySplitGo [ch] fuel s).length = s.count ch + 1 := by
  intro fuel
  induction fuel with
  | zero =>
    intro s hlen
    cases s with
    | nil => simp [pySplitGo]
    | cons c rest => simp at hlen
  | succ f ih =>
    intro s hlen
    cases s with
    | nil => simp [pySplitGo]
    | cons c rest =>
      have hlen' : rest.length ≤ f := by simpa using hlen
      by_cases hc : c = ch
      · subst hc
        have hp : [c].isPrefixOf (c :: rest) = true := by
          simp [List.isPrefixOf]
        simp only [pySplitGo, hp, if_true]
        simp only [List.length_singleton, Nat.sub_self, List.drop_zero]
        simp [ih rest hlen', List.count_cons_self]
      · have hp : [ch].isPrefixOf (c :: rest) = false := by
          simp [List.isPrefixOf]
          intro he
          exact absurd he.symm hc
        simp only [pySplitGo, hp]
        simp only [Bool.false_eq_true, if_false]
        obtain ⟨hd, tl, heq⟩ :=
          List.exists_cons_of_ne_nil (pySplitGo_ne_nil [ch] f rest)
        rw [heq]
        have := ih rest hlen'
        rw [heq] at this
        simp only [List.length_cons] at this ⊢
        rw [List.count_cons]
        simp only [beq_iff_eq, hc, if_false]
        omega

theorem pySplit_single_length (ch : Char) (s : List Char) :
    (pySplit [ch] s).length = s.count ch + 1 := by
  simp only [pySplit]
  rw [if_neg (by simp)]
  exact pySplitGo_single_length ch s.length s (Nat.le_refl _)

theorem cumNewlines_one (a : List Char) (rest : List (List Char)) :
    cumNewlines (a :: rest) 1 = a.count '\n' := by
  simp [cumNewlines]

theorem cumNewlines_cons_succ (a : List Char) (rest : List (List Char)) (i : Nat) :
    cumNewlines (a :: rest) (i + 2) = a.count '\n' + cumNewlines rest (i + 1) := by
  simp [cumNewlines, List.take_succ_cons, List.flatten_cons, List.count_append]

theorem recvLoop_eq_specRecvFrom (k : Int) :
    ∀ (chunks : List (List Char)) (c : Int),
      recvLoop k chunks c = specRecvFrom k c chunks := by
  intro chunks
  induction chunks with
  | nil =>
    intro c
    simp [recvLoop, specRecvFrom, readStopFrom]
  | cons a rest ih =>
    intro c
    have hlen2 : ((pySplit ['\n'] a).length : Int) = (a.count '\n' : Int) + 1 := by
      rw [pySplit_single_length]
      push_cast
      ring
    by_cases ha : a = []
    · subst ha
      have hp : ((([] : List Char) :: rest).getD 0 [] == ([] : List Char)) = true := by simp
      simp only [recvLoop, if_pos rfl, specRecvFrom, readStopFrom, List.length_cons,
        List.range_succ_eq_map, List.find?_cons, hp, Bool.true_or]
      simp
    · have hane : (a == ([] : List Char)) = false := by
        simpa using ha
      have hcum1 : cumNewlines (a :: rest) (0 + 1) = a.count '\n' := by
        simpa using cumNewlines_one a rest
      by_cases hk : c + ((a.count '\n' : Nat) : Int) = k
      · have hp : (((a :: rest).getD 0 [] == ([] : List Char)) ||
            ((c + (cumNewlines (a :: rest) (0 + 1) : Int)) == k)) = true := by
          simp only [List.getD_cons_zero, hane, Bool.false_or, hcum1]
          simpa using hk
        simp only [specRecvFrom, readStopFrom, List.length_cons, List.range_succ_eq_map,
          List.find?_cons, hp]
        simp only [List.getD_cons_zero, hane, Bool.false_eq_true, if_false]
        simp only [recvLoop, ha, if_false]
        rw [hlen2]
        have harith : c + ((a.count '\n' : Int) + 1) - 1 = c + (a.count '\n' : Int) := by ring
        rw [harith, if_pos hk]
        simp
      · have hp : (((a :: rest).getD 0 [] == ([] : List Char)) ||
            ((c + (cumNewlines (a :: rest) (0 + 1) : Int)) == k)) = false := by
          simp only [List.getD_cons_zero, hane, Bool.false_or, hcum1]
          simpa using hk
        have hshift : readStopFrom k c (a :: rest) =
            (readStopFrom k (c + (a.count '\n' : Int)) rest).map Nat.succ := by
          simp only [readStopFrom, List.length_cons, List.range_succ_eq_map,
            List.find?_cons, hp]
          rw [List.find?_map]
          refine congrArg (fun q => Option.map Nat.succ (List.find? q (List.range rest.length))) ?_
          funext i
          simp only [Function.comp_apply]
          rw [List.getD_cons_succ]
          have hc2 : cumNewlines (a :: rest) (Nat.succ i + 1) =
              a.count '\n' + cumNewlines rest (i + 1) := by
            simpa [Nat.succ_eq_add_one] using cumNewlines_cons_succ a rest i
          rw [hc2]
          have hc3 : c + ((a.count '\n' + cumNewlines rest (i + 1) : Nat) : Int) =
              (c + (a.count '\n' : Int)) + (cumNewlines rest (i + 1) : Int) := by
            push_cast
            ring
          rw [hc3]
        simp only [recvLoop, ha, if_false]
        rw [hlen2]
        have harith : c + ((a.count '\n' : Int) + 1) - 1 = c + (a.count '\n' : Int) := by ring
        rw [harith, if_neg hk, ih (c + (a.count '\n' : Nat))]
        simp only [specRecvFrom, hshift]
        cases hstop : readStopFrom k (c + (a.count '\n' : Int)) rest with
        | none => simp [List.flatten_cons]
        | some i =>
          simp only [Option.map_some', Nat.succ_eq_add_one]
          rw [List.getD_cons_succ]
          by_cases hgi : rest.getD i [] == []
          · simp only [hgi, if_true, Nat.succ_eq_add_one, List.take_succ_cons,
              List.flatten_cons]
          · simp only [hgi, Bool.false_eq_true, if_false, Nat.succ_eq_add_one,
              List.take_succ_cons, List.flatten_cons]

theorem digitChar_isDigit {d : Nat} (h : d < 10) : (digitChar d).isDigit = true := by
  interval_cases d <;> decide

theorem digitVal_digitChar {d : Nat} (h : d < 10) : digitVal (digitChar d) = d := by
  interval_cases d <;> decide

theorem ne_of_isDigit {c : Char} (h : c.isDigit = true) (d : Char)
    (hd : d.isDigit = false) : (c == d) = false := by
  simp only [beq_eq_false_iff_ne, ne_eq]
  intro he
  subst he
  rw [h] at hd
  cases hd

theorem isDigit_ne_underscore {c : Char} (h : c.isDigit = true) : (c != '_') = true := by
  simp only [bne_iff_ne, ne_eq]
  intro he
  subst he
  exact absurd h (by decide)

theorem udRest_of_all_digits :
    ∀ l : List Char, (∀ x ∈ l, x.isDigit = true) → udRest l = true := by
  intro l
  induction l with
  | nil => intro _; rfl
  | cons x rest ih =>
    intro h
    have hx : x.isDigit = true := h x (by simp)
    have hne : ¬x = '_' := by
      intro he
      subst he
      exact absurd hx (by decide)
    unfold udRest
    rw [if_neg hne]
    simp only [Bool.and_eq_true]
    exact ⟨hx, ih (fun y hy => h y (by simp [hy]))⟩

theorem digitsOk_of_all_digits {l : List Char} (hne : l ≠ [])
    (h : ∀ x ∈ l, x.isDigit = true) : digitsOk l = true := by
  cases l with
  | nil => exact absurd rfl hne
  | cons c rest =>
    simp only [digitsOk, Bool.and_eq_true]
    exact ⟨h c (by simp), udRest_of_all_digits rest (fun y hy => h y (by simp [hy]))⟩

theorem digitsVal_eq_foldl {l : List Char} (h : ∀ x ∈ l, x.isDigit = true) :
    digitsVal l = l.foldl (fun a c => 10 * a + digitVal c) 0 := by
  simp only [digitsVal]
  congr 1
  apply List.filter_eq_self.mpr
  intro x hx
  exact isDigit_ne_underscore (h x hx)

theorem natToCharsGo_ne_nil : ∀ fuel n, natToCharsGo fuel n ≠ [] := by
  intro fuel n
  match fuel with
  | 0 => simp [natToCharsGo]
  | f + 1 =>
    simp only [natToCharsGo]
    split <;> simp

theorem natToCharsGo_spec :
    ∀ fuel n, n ≤ fuel →
      (∀ x ∈ natToCharsGo fuel n, x.isDigit = true) ∧
      (natToCharsGo fuel n).foldl (fun a c => 10 * a + digitVal c) 0 = n := by
  intro fuel
  induction fuel with
  | zero =>
    intro n hn
    have : n = 0 := Nat.le_zero.mp hn
    subst this
    exact ⟨by decide, by decide⟩
  | succ f ih =>
    intro n hn
    by_cases h10 : n < 10
    · simp only [natToCharsGo, if_pos h10]
      constructor
      · intro x hx
        simp only [List.mem_singleton] at hx
        subst hx
        exact digitChar_isDigit h10
      · simp [digitVal_digitChar h10]
    · have hdivlt : n / 10 < n := Nat.div_lt_self (by omega) (by omega)
      have hdiv : n / 10 ≤ f := by omega
      obtain ⟨ihd, ihv⟩ := ih (n / 10) hdiv
      have hmod : n % 10 < 10 := Nat.mod_lt _ (by omega)
      simp only [natToCharsGo, if_neg h10]
      constructor
      · intro x hx
        rw [List.mem_append] at hx
        cases hx with
        | inl hx => exact ihd x hx
        | inr hx =>
          simp only [List.mem_singleton] at hx
          subst hx
          exact digitChar_isDigit hmod
      · rw [List.foldl_append, ihv]
        simp only [List.foldl_cons, List.foldl_nil]
        rw [digitVal_digitChar hmod]
        omega

theorem parseUDigits_natToChars (n : Nat) : parseUDigits (natToChars n) = some n := by
  obtain ⟨hd, hv⟩ := natToCharsGo_spec n n (Nat.le_refl _)
  have hne := natToCharsGo_ne_nil n n
  simp only [parseUDigits, natToChars]
  rw [if_pos (digitsOk_of_all_digits hne hd)]
  rw [digitsVal_eq_foldl hd, hv]

theorem isDigit_not_space {c : Char} (h : c.isDigit = true) : isPySpace c = false := by
  simp only [isPySpace, ne_of_isDigit h ' ' (by decide), ne_of_isDigit h '\t' (by decide),
    ne_of_isDigit h '\n' (by decide), ne_of_isDigit h '\r' (by decide),
    ne_of_isDigit h '\x0B' (by decide), ne_of_isDigit h '\x0C' (by decide), Bool.or_false]

theorem dropWhile_all_false {p : Char → Bool} :
    ∀ s : List Char, (∀ x ∈ s, p x = false) → s.dropWhile p = s := by
  intro s h
  cases s with
  | nil => rfl
  | cons c rest =>
    rw [List.dropWhile_cons, if_neg]
    simp [h c (by simp)]

theorem stripWS_eq_self {s : List Char} (h : ∀ x ∈ s, isPySpace x = false) :
    stripWS s = s := by
  simp only [stripWS]
  rw [dropWhile_all_false s h]
  rw [dropWhile_all_false s.reverse (fun x hx => h x (List.mem_reverse.mp hx))]
  exact List.reverse_reverse s

theorem pyInt_natToChars (n : Nat) : pyInt (natToChars n) = some (n : Int) := by
  obtain ⟨hd, _⟩ := natToCharsGo_spec n n (Nat.le_refl _)
  have hd' : ∀ x ∈ natToChars n, x.isDigit = true := hd
  have hne : natToChars n ≠ [] := natToCharsGo_ne_nil n n
  have hstrip : stripWS (natToChars n) = natToChars n :=
    stripWS_eq_self (fun x hx => isDigit_not_space (hd' x hx))
  obtain ⟨c, rest, hl⟩ := List.exists_cons_of_ne_nil hne
  have hcdig : c.isDigit = true := hd' c (by rw [hl]; simp)
  rw [pyInt.eq_def, hstrip, hl]
  split
  · rename_i rest' heq
    have hc : c = '+' := by injection heq with h1 _
    subst hc
    exact absurd hcdig (by decide)
  · rename_i rest' heq
    have hc : c = '-' := by injection heq with h1 _
    subst hc
    exact absurd hcdig (by decide)
  · rw [← hl, parseUDigits_natToChars]
    rfl

theorem pyInt_intToChars (m : Int) : pyInt (intToChars m) = some m := by
  by_cases hm : m < 0
  · simp only [intToChars, if_pos hm]
    obtain ⟨hd, _⟩ := natToCharsGo_spec m.natAbs m.natAbs (Nat.le_refl _)
    have hstrip : stripWS ('-' :: natToChars m.natAbs) = '-' :: natToChars m.natAbs := by
      apply stripWS_eq_self
      intro x hx
      rcases List.mem_cons.mp hx with hx | hx
      · subst hx
        decide
      · exact isDigit_not_space (hd x hx)
    rw [pyInt.eq_def, hstrip]
    split
    · rename_i rest' heq
      injection heq with h1 _
      exact absurd h1 (by decide)
    · rename_i rest' heq
      have hr : rest' = natToChars m.natAbs := by
        injection heq with _ h2
        exact h2.symm
      subst hr
      rw [parseUDigits_natToChars]
      show some (-((m.natAbs : Nat) : Int)) = some m
      rw [Option.some_inj]
      omega
    · rename_i t h1 h2
      exact absurd rfl (h2 (natToChars m.natAbs))
  · simp only [intToChars, if_neg hm]
    rw [pyInt_natToChars]
    congr 1
    omega

theorem getElem?_eq_some_getD {α : Type} (l : List α) (i : Nat) (d : α)
    (h : i < l.length) : l[i]? = some (l.getD i d) := by
  rw [List.getD_eq_getElem?_getD, List.getElem?_eq_getElem h]
  rfl

theorem processRecord_ok {line : List Char} {n : Int} (h : recordOk line n = true)
    (acc : OutputsDict) :
    ∃ v : OutputStatus, v.output_id = OutputID.create_from_numeric n ∧
      processRecord line acc = .ok (dictSet acc (wireKey n) v) := by
  simp only [recordOk, Bool.and_eq_true, decide_eq_true_eq, beq_iff_eq] at h
  obtain ⟨⟨⟨hlen, hid⟩, hinp⟩, hvol⟩ := h
  have h1? : (pySplit (", ").data line)[1]? =
      some ((pySplit (", ").data line).getD 1 []) :=
    getElem?_eq_some_getD _ 1 [] (by simp only [show (", ").data = [',', ' '] from rfl] at hlen ⊢; omega)
  have h2? : (pySplit (", ").data line)[2]? =
      some ((pySplit (", ").data line).getD 2 []) :=
    getElem?_eq_some_getD _ 2 [] (by simp only [show (", ").data = [',', ' '] from rfl] at hlen ⊢; omega)
  have h3? : (pySplit (", ").data line)[3]? =
      some ((pySplit (", ").data line).getD 3 []) :=
    getElem?_eq_some_getD _ 3 [] (by simp only [show (", ").data = [',', ' '] from rfl] at hlen ⊢; omega)
  have h4? : (pySplit (", ").data line)[4]? =
      some ((pySplit (", ").data line).getD 4 []) :=
    getElem?_eq_some_getD _ 4 [] (by simp only [show (", ").data = [',', ' '] from rfl] at hlen ⊢; omega)
  have h10? : (pySplit (", ").data line)[10]? =
      some ((pySplit (", ").data line).getD 10 []) :=
    getElem?_eq_some_getD _ 10 [] (by simp only [show (", ").data = [',', ' '] from rfl] at hlen ⊢; omega)
  obtain ⟨inp, hinp'⟩ :
      ∃ inp, InputID.create_from_status_id ((pySplit (", ").data line).getD 3 []) = .ok inp := by
    cases hc : InputID.create_from_status_id ((pySplit (", ").data line).getD 3 []) with
    | ok v => exact ⟨v, rfl⟩
    | error e =>
      rw [hc] at hinp
      simp [Py.isOk] at hinp
  obtain ⟨vol, hvol'⟩ := Option.isSome_iff_exists.mp hvol
  refine ⟨⟨OutputID.create_from_numeric n, (pySplit (", ").data line).getD 0 [], inp,
    (pySplit (", ").data line).getD 2 [] == ("on").data, vol,
    (pySplit (", ").data line).getD 10 [] == ("on").data⟩, rfl, ?_⟩
  simp only [processRecord, h1?, hid, h2?, h3?, hinp', h4?, hvol', h10?]
  rfl

theorem dictSet_append {acc : OutputsDict} {k : List Char} (v : OutputStatus)
    (h : acc.any (fun p => p.1 == k) = false) :
    dictSet acc k v = acc ++ [(k, v)] := by
  simp only [dictSet, h]
  simp

theorem processLines_keys :
    ∀ (ls : List (List Char)) (ns : List Int) (acc : OutputsDict),
      recordsOk ls ns = true →
      (acc.map Prod.fst ++ ns.map wireKey).Nodup →
      ∃ d, processLines ls acc = .ok d ∧
        d.map Prod.fst = acc.map Prod.fst ++ ns.map wireKey := by
  intro ls
  induction ls with
  | nil =>
    intro ns acc hok hnd
    cases ns with
    | nil => exact ⟨acc, rfl, by simp⟩
    | cons n ns' => simp [recordsOk] at hok
  | cons line rest ih =>
    intro ns acc hok hnd
    cases ns with
    | nil => simp [recordsOk] at hok
    | cons n ns' =>
      simp only [recordsOk, Bool.and_eq_true] at hok
      obtain ⟨hr, hrest⟩ := hok
      obtain ⟨v, hv, hpr⟩ := processRecord_ok hr acc
      obtain ⟨nd1, nd2, hdisj⟩ := List.nodup_append.mp (by simpa using hnd)
      have hkey : acc.any (fun p => p.1 == wireKey n) = false := by
        rw [List.any_eq_false]
        intro p hp
        simp only [beq_iff_eq]
        intro he
        have hmem : wireKey n ∈ acc.map Prod.fst := by
          rw [← he]
          exact List.mem_map_of_mem Prod.fst hp
        exact hdisj hmem (by simp)
      have hnd' : ((acc ++ [(wireKey n, v)]).map Prod.fst ++ ns'.map wireKey).Nodup := by
        have heq : (acc ++ [(wireKey n, v)]).map Prod.fst ++ ns'.map wireKey =
            acc.map Prod.fst ++ wireKey n :: ns'.map wireKey := by
          simp
        rw [heq]
        simpa using hnd
      obtain ⟨d, hd, hkeys⟩ := ih ns' (acc ++ [(wireKey n, v)]) hrest hnd'
      refine ⟨d, ?_, ?_⟩
      · simp only [processLines, hpr]
        rw [dictSet_append v hkey]
        exact hd
      · rw [hkeys]
        simp
  
theorem processRecord_error_of_bad {line : List Char} (h : badRecordField line)
    (acc : OutputsDict) : ∃ e, processRecord line acc = .error e := by
  cases h with
  | inl h =>
    obtain ⟨s, hs, hps⟩ := h
    exact ⟨.valueError, by simp only [processRecord, hs, hps]⟩
  | inr h =>
    obtain ⟨t, ht, hpt⟩ := h
    cases h1 : (pySplit (", ").data line)[1]? with
    | none => exact ⟨.indexError, by simp only [processRecord, h1]⟩
    | some f1 =>
      cases h2 : pyInt f1 with
      | none => exact ⟨.valueError, by simp only [processRecord, h1, h2]⟩
      | some nid =>
        cases h3 : (pySplit (", ").data line)[2]? with
        | none => exact ⟨.indexError, by simp only [processRecord, h1, h2, h3]⟩
        | some f2 =>
          cases h4 : (pySplit (", ").data line)[3]? with
          | none => exact ⟨.indexError, by simp only [processRecord, h1, h2, h3, h4]⟩
          | some f3 =>
            cases h5 : InputID.create_from_status_id f3 with
            | error e =>
              exact ⟨e, by simp only [processRecord, h1, h2, h3, h4, h5]⟩
            | ok inp =>
              exact ⟨.valueError, by
                simp only [processRecord, h1, h2, h3, h4, h5, ht, hpt]⟩

theorem processLines_error :
    ∀ (ls : List (List Char)) (i : Nat) (line : List Char) (acc : OutputsDict),
      ls[i]? = some line →
      (∀ acc' : OutputsDict, ∃ e, processRecord line acc' = .error e) →
      ∃ e, processLines ls acc = .error e := by
  intro ls
  induction ls with
  | nil =>
    intro i line acc h _
    simp at h
  | cons l rest ih =>
    intro i line acc h hbad
    cases i with
    | zero =>
      simp only [List.getElem?_cons_zero, Option.some_inj] at h
      subst h
      obtain ⟨e, he⟩ := hbad acc
      exact ⟨e, by simp only [processLines, he]⟩
    | succ i' =>
      simp only [List.getElem?_cons_succ] at h
      cases hpr : processRecord l acc with
      | error e => exact ⟨e, by simp only [processLines, hpr]⟩
      | ok acc' =>
        obtain ⟨e, he⟩ := ih i' line acc' h hbad
        exact ⟨e, by simp only [processLines, hpr, he]⟩

theorem okSentinel_ne_badSentinel (c : List Char) : okSentinel c ≠ badSentinel c := by
  intro h
  simp only [okSentinel, badSentinel] at h
  simp at h

theorem interpret_result_reduce (command response rem : List Char)
    (h1 : (pySplit1 ("\r").data response)[1]? = some rem)
    (hecho : (pySplit1 ("\r").data response).getD 0 [] = command) (expect : Bool) :
    interpret_result command response expect =
      (if rem = badSentinel command then Py.error PyErr.badCommand
       else if expect then Py.ok (rem == okSentinel command, rem)
       else Py.ok (true, rem)) := by
  simp only [interpret_result]
  rw [hecho, if_neg (not_not_intro rfl), h1]

/-- C1: when the raw reply's first carriage-return-delimited segment equals
the command, `_interpret_result` with `expect_success_code` true returns
`(true, remainder)` exactly when the remainder is the success sentinel
`01<command>\r`, returns `(false, remainder)` on any other remainder that is
not the bad-command sentinel, and with `expect_success_code` false returns
`(true, remainder)` regardless of whether the success sentinel matched. -/
theorem interpret_success_and_payload (command rem response : List Char)
    (hsplit : pySplit1 ("\r").data response = [command, rem]) :
    (rem = okSentinel command →
      interpret_result command response true = Py.ok (true, rem)) ∧
    (rem ≠ okSentinel command → rem ≠ badSentinel command →
      interpret_result command response true = Py.ok (false, rem)) ∧
    (rem ≠ badSentinel command →
      interpret_result command response false = Py.ok (true, rem)) := by
  have hecho : (pySplit1 ("\r").data response).getD 0 [] = command := by
    rw [hsplit]
    rfl
  have h1 : (pySplit1 ("\r").data response)[1]? = some rem := by
    rw [hsplit]
    rfl
  refine ⟨?_, ?_, ?_⟩
  · intro hok
    have hbad : rem ≠ badSentinel command := by
      rw [hok]
      exact okSentinel_ne_badSentinel command
    rw [interpret_result_reduce command response rem h1 hecho true,
      if_neg hbad, if_pos rfl, hok]
    simp
  · intro hnok hbad
    rw [interpret_result_reduce command response rem h1 hecho true,
      if_neg hbad, if_pos rfl]
    have : (rem == okSentinel command) = false := by
      simpa using hnok
    rw [this]
  · intro hbad
    rw [interpret_result_reduce command response rem h1 hecho false,
      if_neg hbad]
    rfl

/-- Witness for C1 at the specification's concrete example: interpreting the
reply to `Z1on` that carries the success sentinel yields success with the
sentinel as payload. -/
theorem interpret_success_and_payload_witness :
    interpret_result ("Z1on").data ("Z1on\r01Z1on\r").data true =
      Py.ok (true, ("01Z1on\r").data) :=
  (interpret_success_and_payload ("Z1on").data ("01Z1on\r").data
    ("Z1on\r01Z1on\r").data (by decide)).1 (by decide)

/-- C7: whenever the first carriage-return-delimited segment of the raw
reply differs from the command, `_interpret_result` raises the bare
`Exception` that the specification's taxonomy calls ProtocolViolationError,
for either value of `expect_success_code`. -/
theorem interpret_echo_mismatch (command response : List Char) (expect : Bool)
    (h : (pySplit1 ("\r").data response).getD 0 [] ≠ command) :
    interpret_result command response expect = Py.error PyErr.exception := by
  simp only [interpret_result]
  rw [if_pos h]

/-- Witness for C7: a reply whose echo is `b` for the command `a` raises the
echo-mismatch error. -/
theorem interpret_echo_mismatch_witness :
    interpret_result ("a").data ("b").data true = Py.error PyErr.exception :=
  interpret_echo_mismatch ("a").data ("b").data true (by decide)

/-- C8: `_interpret_result` raises `BadCommandError` exactly when the first
carriage-return-delimited segment of the raw reply equals the command and
the remainder is the bad-command sentinel `xx<command>xx\r`, for either
value of `expect_success_code`. -/
theorem interpret_bad_command_iff (command response : List Char) (expect : Bool) :
    interpret_result command response expect = Py.error PyErr.badCommand ↔
      ((pySplit1 ("\r").data response).getD 0 [] = command ∧
       (pySplit1 ("\r").data response)[1]? = some (badSentinel command)) := by
  constructor
  · intro h
    by_cases hecho : (pySplit1 ("\r").data response).getD 0 [] = command
    · refine ⟨hecho, ?_⟩
      cases h1 : (pySplit1 ("\r").data response)[1]? with
      | none =>
        simp only [interpret_result] at h
        rw [hecho, if_neg (not_not_intro rfl), h1] at h
        simp at h
      | some result =>
        rw [interpret_result_reduce command response result h1 hecho expect] at h
        by_cases hb : result = badSentinel command
        · rw [hb]
        · rw [if_neg hb] at h
          cases expect <;> simp at h
    · unfold interpret_result at h
      rw [if_pos hecho] at h
      simp at h
  · intro ⟨hecho, h1⟩
    rw [interpret_result_reduce command response (badSentinel command) h1 hecho expect,
      if_pos rfl]

/-- Witness for C8 at the specification's concrete example: the reply to
`Z1on` carrying the bad-command sentinel raises `BadCommandError`. -/
theorem interpret_bad_command_iff_witness :
    interpret_result ("Z1on").data ("Z1on\rxxZ1onxx\r").data true =
      Py.error PyErr.badCommand :=
  (interpret_bad_command_iff ("Z1on").data ("Z1on\rxxZ1onxx\r").data true).mpr
    (by decide)

/-- Counterexample to C9 as stated: a raw reply with no carriage return whose
text differs from the command makes `_interpret_result` raise the
echo-mismatch error of the specification's taxonomy, not the untyped
out-of-bounds `IndexError` the claim asserts for every carriage-return-free
reply. -/
theorem interpret_no_cr_mismatch_not_index_error :
    hasOccur ("\r").data ("b").data = false ∧
    interpret_result ("a").data ("b").data true = Py.error PyErr.exception ∧
    interpret_result ("a").data ("b").data true ≠ Py.error PyErr.indexError := by
  decide

/-- C9 (amended): when the raw reply contains no carriage return and equals
the command (for example a truncated reply consisting exactly of the echoed
command with no remainder), `_interpret_result` fails with the untyped
out-of-bounds `IndexError` while accessing the missing remainder, not with
an error of the specification's taxonomy; replies with no carriage return
that differ from the command instead raise the echo-mismatch error. -/
theorem interpret_no_cr_echo_index_error (command response : List Char)
    (expect : Bool) (hnocr : hasOccur ("\r").data response = false)
    (hecho : response = command) :
    interpret_result command response expect = Py.error PyErr.indexError := by
  subst hecho
  have hs : pySplit1 ("\r").data response = [response] := pySplit1_no_occur hnocr
  simp only [interpret_result]
  rw [hs]
  rw [if_neg (not_not_intro (List.getD_cons_zero))]
  rfl

/-- Witness for C9 (amended): a carriage-return-free reply consisting of the
echoed command raises the untyped out-of-bounds error. -/
theorem interpret_no_cr_echo_index_error_witness :
    interpret_result ("abc").data ("abc").data true = Py.error PyErr.indexError :=
  interpret_no_cr_echo_index_error ("abc").data ("abc").data true (by decide) rfl

/-- Counterexample to C5 as stated: the code splits the token on every
occurrence of the separator, not the first only, and parses only the part
between the first and second occurrences.  On this token the part after the
first occurrence is `2 & 3`, which does not parse as an integer, so the
claim requires a MalformedTokenError failure, yet the code succeeds with
AnalogInput 2. -/
theorem decode_input_two_separators :
    InputID.create_from_status_id ("A & 2 & 3").data =
      Py.ok (InputID.create_analog 2) ∧
    pySplit1 (" & ").data ("A & 2 & 3").data = [("A").data, ("2 & 3").data] ∧
    pyInt ("2 & 3").data = none := by
  decide

/-- C5 (amended): `InputID.create_from_status_id` splits the token on every
occurrence of the separator space-ampersand-space and parses the part
between the first and second occurrences (the entire part after the
separator when it occurs only once) as a base-10 integer `n`; a result with
1 ≤ n ≤ 8 decodes to AnalogInput(n), n = 9 to DigitalInput a, and any other
integer to DigitalInput b.  It fails with the out-of-bounds error when the
separator is absent and with the `int` parse error when that part does not
parse as an integer (both MalformedTokenError in the specification's
taxonomy). -/
theorem decode_input_token_characterization (token : List Char) :
    ((pySplit (" & ").data token)[1]? = none →
      InputID.create_from_status_id token = Py.error PyErr.indexError) ∧
    (∀ part, (pySplit (" & ").data token)[1]? = some part →
      (pyInt part = none →
        InputID.create_from_status_id token = Py.error PyErr.valueError) ∧
      (∀ n : Int, pyInt part = some n →
        InputID.create_from_status_id token = Py.ok (InputID.create_from_numeric n))) ∧
    (∀ n : Int, (1 ≤ n → n ≤ 8 →
        InputID.create_from_numeric n = InputID.create_analog n) ∧
      (n = 9 → InputID.create_from_numeric n = InputID.create_digital ['a']) ∧
      (¬(1 ≤ n ∧ n ≤ 8) → n ≠ 9 →
        InputID.create_from_numeric n = InputID.create_digital ['b'])) := by
  refine ⟨?_, ?_, ?_⟩
  · intro h
    simp only [InputID.create_from_status_id, h]
  · intro part hp
    constructor
    · intro hn
      simp only [InputID.create_from_status_id, hp, hn]
    · intro n hn
      simp only [InputID.create_from_status_id, hp, hn]
  · intro n
    refine ⟨?_, ?_, ?_⟩
    · intro h1 h2
      simp only [InputID.create_from_numeric, if_pos (And.intro h1 h2)]
      rfl
    · intro h9
      subst h9
      decide
    · intro h18 h9
      simp only [InputID.create_from_numeric, if_neg h18]
      rw [if_neg h9]
      rfl

/-- Witness for C5 (amended) at the specification's concrete examples:
`Foo & 3` decodes to AnalogInput 3 and `Foo & 9` decodes to
DigitalInput a. -/
theorem decode_input_token_characterization_witness :
    InputID.create_from_status_id ("Foo & 3").data =
      Py.ok (InputID.create_from_numeric 3) ∧
    InputID.create_from_numeric 3 = InputID.create_analog 3 ∧
    InputID.create_from_status_id ("Foo & 9").data =
      Py.ok (InputID.create_from_numeric 9) ∧
    InputID.create_from_numeric 9 = InputID.create_digital ['a'] :=
  ⟨((decode_input_token_characterization (("Foo & 3").data)).2.1 ("3").data
      (by decide)).2 3 (by decide),
   ((decode_input_token_characterization (("Foo & 3").data)).2.2 3).1
      (by decide) (by decide),
   ((decode_input_token_characterization (("Foo & 9").data)).2.1 ("9").data
      (by decide)).2 9 (by decide),
   ((decode_input_token_characterization (("Foo & 9").data)).2.2 9).2.1 rfl⟩

/-- C6: decoding a numeric output status token and re-rendering round-trips
as claimed: ids 1 to 8 decode to analog outputs whose wire form is Z
followed by the id, 9 decodes to DigitalOutput a with wire form DXOa, and
every other integer token (Python `str` of any integer parses back to that
integer, so in particular 10, every value above 10, zero and negatives)
decodes to DigitalOutput b with wire form DXOb. -/
theorem decode_output_round_trip :
    (∀ n : Int, 1 ≤ n → n ≤ 8 →
      OutputID.create_from_status_id (intToChars n) =
        Py.ok (OutputID.create_analog n) ∧
      (OutputID.create_analog n).toWire = ("Z").data ++ intToChars n) ∧
    (OutputID.create_from_status_id ("9").data =
        Py.ok (OutputID.create_digital ['a']) ∧
      (OutputID.create_digital ['a']).toWire = ("DXOa").data) ∧
    (∀ m : Int, pyInt (intToChars m) = some m) ∧
    (∀ (token : List Char) (m : Int), pyInt token = some m →
      ¬(1 ≤ m ∧ m ≤ 8) → m ≠ 9 →
      OutputID.create_from_status_id token = Py.ok (OutputID.create_digital ['b']) ∧
      (OutputID.create_digital ['b']).toWire = ("DXOb").data) := by
  refine ⟨?_, ⟨by decide, by decide⟩, pyInt_intToChars, ?_⟩
  · intro n h1 h8
    constructor
    · simp only [OutputID.create_from_status_id, pyInt_intToChars,
        OutputID.create_from_numeric, if_pos (And.intro h1 h8)]
      rfl
    · simp only [OutputID.create_analog, OutputID.toWire]
      rw [if_pos (by omega : (n : Int) ≠ -1)]
  · intro token m hm h18 h9
    constructor
    · simp only [OutputID.create_from_status_id, hm, OutputID.create_from_numeric,
        if_neg h18]
      rw [if_neg h9]
      rfl
    · decide

/-- Witness for C6: id 3 round-trips to wire form Z3, and the token 10
decodes to DigitalOutput b. -/
theorem decode_output_round_trip_witness :
    (OutputID.create_from_status_id (intToChars 3) =
        Py.ok (OutputID.create_analog 3) ∧
      (OutputID.create_analog 3).toWire = ("Z").data ++ intToChars 3) ∧
    OutputID.create_from_status_id ("10").data =
      Py.ok (OutputID.create_digital ['b']) :=
  ⟨decode_output_round_trip.1 3 (by decide) (by decide),
   (decode_output_round_trip.2.2.2 ("10").data 10 (by decide) (by decide)
     (by decide)).1⟩

/-- C10: the analog constructors enforce no range precondition: for every
integer except -1 the constructed identifier keeps the integer and renders
the analog wire form, while -1 collides with the internal unset sentinel,
so the identifier renders the digital wire form with an empty letter and
reports the digital human name. -/
theorem create_analog_no_range_check :
    (∀ n : Int, n ≠ -1 →
      (InputID.create_analog n).toWire = ("MX").data ++ intToChars n ∧
      (OutputID.create_analog n).toWire = ("Z").data ++ intToChars n) ∧
    ((InputID.create_analog (-1)).toWire = ("DX").data ∧
      (InputID.create_analog (-1)).humanName = ("Digital In ").data ∧
      (OutputID.create_analog (-1)).toWire = ("DXO").data ∧
      (OutputID.create_analog (-1)).humanName = ("Digital Out ").data) := by
  constructor
  · intro n hn
    constructor
    · simp only [InputID.create_analog, InputID.toWire]
      rw [if_pos hn]
    · simp only [OutputID.create_analog, OutputID.toWire]
      rw [if_pos hn]
  · exact ⟨by decide, by decide, by decide, by decide⟩

/-- Witness for C10 at the out-of-range id 99: both constructors accept it
and render the analog wire forms MX99 and Z99. -/
theorem create_analog_no_range_check_witness :
    (InputID.create_analog 99).toWire = ("MX99").data ∧
    (OutputID.create_analog 99).toWire = ("Z99").data := by
  obtain ⟨h1, h2⟩ := create_analog_no_range_check.1 99 (by decide)
  constructor
  · rw [h1]
    decide
  · rw [h2]
    decide

set_option linter.unusedVariables false in
/-- C2: `_async_send_command` writes the command followed by a single
carriage return and returns the concatenation of the chunks read up to and
including the first chunk at which the cumulative newline count equals the
expected line count, or up to (excluding) the first zero-length chunk when
the stream ends before that count is reached, in which case the accumulated
text is returned rather than an error being raised. -/
theorem send_command_reads_until_line_count (command : List Char) (k : Int)
    (chunks : List (List Char)) (hk : 0 ≤ k) :
    async_send_command command k chunks =
      (command ++ ("\r").data, specRecvResult k chunks) := by
  simp only [async_send_command, specRecvResult]
  rw [recvLoop_eq_specRecvFrom]

/-- Witness for C2: a reply arriving as one newline-carrying chunk followed
by further data stops the loop at the first chunk. -/
theorem send_command_reads_until_line_count_witness :
    0 ≤ (1 : Int) ∧
    async_send_command ("Z1on").data 1 [("Z1on\r\n").data, ("junk").data] =
      (("Z1on\r").data, specRecvResult 1 [("Z1on\r\n").data, ("junk").data]) ∧
    specRecvResult 1 [("Z1on\r\n").data, ("junk").data] = ("Z1on\r\n").data :=
  ⟨by decide,
   send_command_reads_until_line_count ("Z1on").data 1 _ (by decide),
   by decide⟩

set_option linter.unusedVariables false in
/-- C3: on a well-formed 21-line status payload (CRLF-separated, line 0 the
amplifier-name marker followed by the device name, lines 11 through 20
records whose output-id field is 1 to 10 in device order and whose fields
2, 3, 4 and 10 parse as specified), the status parser returns the device
name verbatim from line 0 and an outputs map with exactly ten entries
keyed, in insertion order, Z1 to Z8, DXOa, DXOb, each key the re-rendered
wire form of the output decoded from the record's id field. -/
theorem parse_status_well_formed (payload devname : List Char)
    (lines : List (List Char))
    (hsplit : pySplit ("\r\n").data payload = lines)
    (hlen : lines.length = 21)
    (hline0 : lines.getD 0 [] = ("AMPLIFIER NAME: ").data ++ devname)
    (hclean : hasOccur ("AMPLIFIER NAME: ").data devname = false)
    (hrecs : recordsOk ((lines.drop 11).take 10)
      [1, 2, 3, 4, 5, 6, 7, 8, 9, 10] = true) :
    ∃ st : SystemStatus, parseStatus payload = Py.ok st ∧
      st.name = devname ∧
      st.outputs.map Prod.fst = [1, 2, 3, 4, 5, 6, 7, 8, 9, 10].map wireKey ∧
      st.outputs.length = 10 ∧
      [1, 2, 3, 4, 5, 6, 7, 8, 9, 10].map wireKey =
        [("Z1").data, ("Z2").data, ("Z3").data, ("Z4").data, ("Z5").data,
         ("Z6").data, ("Z7").data, ("Z8").data, ("DXOa").data, ("DXOb").data] := by
  have hname : pySplit ("AMPLIFIER NAME: ").data (lines.getD 0 []) = [[], devname] := by
    rw [hline0]
    exact pySplit_sep_append_no_occur hclean
  obtain ⟨d, hd, hkeys⟩ := processLines_keys ((lines.drop 11).take 10)
    [1, 2, 3, 4, 5, 6, 7, 8, 9, 10] [] hrecs (by decide)
  have hkeys' : d.map Prod.fst = [1, 2, 3, 4, 5, 6, 7, 8, 9, 10].map wireKey := by
    simpa using hkeys
  refine ⟨⟨devname, d⟩, ?_, rfl, hkeys', ?_, by decide⟩
  · simp only [parseStatus, hsplit, hname, List.getElem?_cons_succ,
      List.getElem?_cons_zero, hd]
  · have := congrArg List.length hkeys'
    simpa using this

set_option maxRecDepth 100000 in
/-- Witness for C3 on a concrete well-formed 21-line payload. -/
theorem parse_status_well_formed_witness :
    ∃ st : SystemStatus, parseStatus samplePayload = Py.ok st ∧
      st.name = ("Amp").data ∧
      st.outputs.map Prod.fst = [1, 2, 3, 4, 5, 6, 7, 8, 9, 10].map wireKey ∧
      st.outputs.length = 10 ∧
      [1, 2, 3, 4, 5, 6, 7, 8, 9, 10].map wireKey =
        [("Z1").data, ("Z2").data, ("Z3").data, ("Z4").data, ("Z5").data,
         ("Z6").data, ("Z7").data, ("Z8").data, ("DXOa").data, ("DXOb").data] :=
  parse_status_well_formed samplePayload ("Amp").data
    (pySplit ("\r\n").data samplePayload) rfl (by decide) (by decide) (by decide)
    (by decide)

/-- Counterexample to C4 as stated: a payload that splits on CRLF into a
single line (fewer than 21) whose line 0 carries the amplifier-name marker
parses successfully into a status with an empty outputs map, because the
Python slice of lines 11 through 20 silently yields no lines on a short
list; the claim requires a MalformedReportError failure on every payload
with fewer than 21 lines. -/
theorem parse_status_short_payload_no_error :
    parseStatus ("AMPLIFIER NAME: Amp").data = Py.ok ⟨("Amp").data, []⟩ ∧
    (pySplit ("\r\n").data ("AMPLIFIER NAME: Amp").data).length < 21 := by
  decide

/-- C4 (amended): the status parser does not fail merely because the payload
has fewer than 21 lines: with at most 11 lines and a well-formed name line
it succeeds with an empty outputs map.  It does fail whenever any record
among lines 11 through 20 has its output-id field (position 1) or volume
field (position 4) present but not parsing as an integer (the `int`
ValueError that the specification's taxonomy calls MalformedReportError). -/
theorem parse_status_short_and_bad_fields :
    (∀ (payload devname : List Char) (lines : List (List Char)),
      pySplit ("\r\n").data payload = lines →
      lines.getD 0 [] = ("AMPLIFIER NAME: ").data ++ devname →
      hasOccur ("AMPLIFIER NAME: ").data devname = false →
      lines.length ≤ 11 →
      parseStatus payload = Py.ok ⟨devname, []⟩) ∧
    (∀ (payload line : List Char) (lines : List (List Char)) (j : Nat),
      pySplit ("\r\n").data payload = lines →
      11 ≤ j → j < 21 → lines[j]? = some line →
      badRecordField line →
      ∃ e, parseStatus payload = Py.error e) := by
  constructor
  · intro payload devname lines hsplit hline0 hclean hlen
    have hname : pySplit ("AMPLIFIER NAME: ").data (lines.getD 0 []) = [[], devname] := by
      rw [hline0]
      exact pySplit_sep_append_no_occur hclean
    have hdrop : lines.drop 11 = [] := List.drop_eq_nil_of_le hlen
    simp only [parseStatus, hsplit, hname, hdrop, List.take_nil,
      List.getElem?_cons_succ, List.getElem?_cons_zero, processLines]
  · intro payload line lines j hsplit h11 h21 hline hbad
    cases hname : (pySplit ("AMPLIFIER NAME: ").data (lines.getD 0 []))[1]? with
    | none => exact ⟨.indexError, by simp only [parseStatus, hsplit, hname]⟩
    | some nm =>
      have hrec : ((lines.drop 11).take 10)[j - 11]? = some line := by
        rw [List.getElem?_take, if_pos (by omega), List.getElem?_drop]
        rw [show 11 + (j - 11) = j from by omega]
        exact hline
      obtain ⟨e, he⟩ := processLines_error ((lines.drop 11).take 10) (j - 11) line []
        hrec (processRecord_error_of_bad hbad)
      exact ⟨e, by simp only [parseStatus, hsplit, hname, he]⟩

set_option maxRecDepth 100000 in
/-- Witness for C4 (amended): a one-line payload parses to an empty status,
and a 21-line payload whose first record has the non-numeric output id `q`
makes the parser fail. -/
theorem parse_status_short_and_bad_fields_witness :
    parseStatus ("AMPLIFIER NAME: Short").data = Py.ok ⟨("Short").data, []⟩ ∧
    ∃ e, parseStatus samplePayloadBad = Py.error e :=
  ⟨parse_status_short_and_bad_fields.1 ("AMPLIFIER NAME: Short").data
     ("Short").data (pySplit ("\r\n").data ("AMPLIFIER NAME: Short").data) rfl
     (by decide) (by decide) (by decide),
   parse_status_short_and_bad_fields.2 samplePayloadBad
     ("Z, q, on, A & 1, 100, 0, 0, e, g, t, off").data
     (pySplit ("\r\n").data samplePayloadBad) 11 rfl (by decide) (by decide)
     (by decide) (Or.inl ⟨("q").data, by decide, by decide⟩)⟩
